import Mathlib

set_option maxRecDepth 8000

/-!
Verification of the LLM provider orchestration layer of the homeward IDE.

This file shallowly embeds the code of `src/src/llm/LLMManager.ts` (the
`LLMManager` retry/fallback engine and the shared `BaseLLMProvider`
behaviour), the streaming chunk decoders of
`src/src/llm/providers/OpenAIProvider.ts` and the Ollama provider, and the
provider-registry bookkeeping, and proves the frozen claims about them.

Conventions of the embedding:
* JavaScript numbers that matter arithmetically (costs, rates, averages)
  are modelled as rationals; exact rational arithmetic stands in for IEEE
  doubles.
* JavaScript falsiness of `0`, `""`, `undefined` and `null` is modelled
  explicitly (`jsOrNat`, `jsStr`, `jsTruthyStr`).
* Network calls are modelled as scripted outcomes: a provider call is a
  function from the call index to its outcome, a status probe is a record
  of elapsed time and optional failure.
* A JavaScript `TypeError` crash (dereferencing `models[0]` when the model
  catalog is empty) is modelled as `Option.none`.
-/

/-- Role of a chat message (`'system' | 'user' | 'assistant'`). -/
inductive LLMRole where
  | system
  | user
  | assistant
deriving DecidableEq, Repr

/-- `LLMMessage` from `src/unnamed/part_006` (types/llm.ts); the optional
timestamp is irrelevant to every claim and omitted. -/
structure LLMMessage where
  role : LLMRole
  content : String
deriving DecidableEq, Repr

/-- `LLMRequest` from types/llm.ts. `stream` is irrelevant to the claims. -/
structure LLMRequest where
  messages : List LLMMessage
  model : Option String
  temperature : Option ℚ
  maxTokens : Option Nat
  systemPrompt : Option String
deriving DecidableEq, Repr

/-- `costPer1kTokens` field of a model descriptor. -/
structure CostPer1k where
  input : ℚ
  output : ℚ
deriving DecidableEq, Repr

/-- `LLMModel` from types/llm.ts. -/
structure LLMModel where
  id : String
  name : String
  contextWindow : Nat
  maxTokens : Nat
  supportsStreaming : Bool
  supportsImages : Bool
  costPer1kTokens : Option CostPer1k
deriving DecidableEq, Repr

/-- `LLMResponse` from types/llm.ts, restricted to the fields the manager
claims talk about. -/
structure LLMResponse where
  content : String
  model : String
deriving DecidableEq, Repr

/-- `LLMStreamChunk` from types/llm.ts. -/
structure LLMStreamChunk where
  content : String
  delta : String
  finished : Bool
  model : String
deriving DecidableEq, Repr

/-- The `LLMError` hierarchy of types/llm.ts as a closed sum:
`LLMRateLimitError` (code RATE_LIMIT, optional retryAfter seconds),
`LLMAuthenticationError` (code AUTH_ERROR), `LLMNetworkError`
(code NETWORK_ERROR) and the base `LLMError` with an arbitrary code. -/
inductive LLMErr where
  | rateLimit (provider : String) (retryAfter : Option Nat)
  | auth (provider : String)
  | network (provider : String) (msg : String)
  | generic (msg : String) (code : String) (provider : String)
deriving DecidableEq, Repr

/-- The `code` field carried by each error class constructor. -/
def LLMErr.code : LLMErr → String
  | .rateLimit _ _ => "RATE_LIMIT"
  | .auth _ => "AUTH_ERROR"
  | .network _ _ => "NETWORK_ERROR"
  | .generic _ c _ => c

/-- Outcome of one provider call (`provider.sendMessage` resolving or
throwing a classified error). -/
inductive CallOutcome where
  | ok (r : LLMResponse)
  | err (e : LLMErr)
deriving DecidableEq, Repr

/-- `error instanceof LLMRateLimitError && error.retryAfter` — the
rate-limit branch guard in `executeWithRetryAndFallback`; `retryAfter`
equal to `0` is falsy in JavaScript. -/
def isRLWithHint : LLMErr → Bool
  | .rateLimit _ (some ra) => ra != 0
  | _ => false

/-- Milliseconds slept by `this.delay(error.retryAfter * 1000)`. -/
def rlSleepMs : LLMErr → Nat
  | .rateLimit _ (some ra) => ra * 1000
  | _ => 0

/-- `value || default` on an optional JavaScript number: `undefined` and
`0` are falsy. Models `this.config.retryAttempts || 3` and
`this.config.retryDelay || 1000`. -/
def jsOrNat (o : Option Nat) (d : Nat) : Nat :=
  match o with
  | none => d
  | some n => if n = 0 then d else n

/-- Trace of the primary-provider retry loop of
`LLMManager.executeWithRetryAndFallback` (lines 214-241): the returned
response if any, the backoff/rate-limit sleeps requested in order (ms),
how many times `operation()` was invoked, and every error caught, in
order.  The loop variable `lastError` is the last element of `errors`. -/
structure RetryTrace where
  result : Option LLMResponse
  sleeps : List Nat
  calls : Nat
  errors : List LLMErr
deriving DecidableEq, Repr

/-- The `for (let attempt = 1; attempt <= maxA; attempt++)` loop body.
`remaining` counts the loop iterations still allowed (`maxA + 1 - attempt`
at entry), so the recursion is structural; `attempt` is the source loop
counter, used for the backoff guard `attempt < maxA` and the linear
backoff delay `delayMs * attempt`; `calls` indexes the scripted outcomes
`op`.  On a caught error: a rate-limit error with a truthy `retryAfter`
sleeps `retryAfter * 1000` ms and `continue`s (which still increments
`attempt`); an error whose `code` is `AUTH_ERROR` breaks out of the loop;
any other error sleeps `delayMs * attempt` if another attempt remains. -/
def retryPhaseGo (op : Nat → CallOutcome) (maxA delayMs : Nat) :
    Nat → Nat → Nat → RetryTrace
  | 0, _, calls => ⟨none, [], calls, []⟩
  | remaining + 1, attempt, calls =>
    match op calls with
    | .ok r => ⟨some r, [], calls + 1, []⟩
    | .err e =>
      if isRLWithHint e then
        let t := retryPhaseGo op maxA delayMs remaining (attempt + 1) (calls + 1)
        ⟨t.result, rlSleepMs e :: t.sleeps, t.calls, e :: t.errors⟩
      else if e.code = "AUTH_ERROR" then
        ⟨none, [], calls + 1, [e]⟩
      else if attempt < maxA then
        let t := retryPhaseGo op maxA delayMs remaining (attempt + 1) (calls + 1)
        ⟨t.result, delayMs * attempt :: t.sleeps, t.calls, e :: t.errors⟩
      else
        let t := retryPhaseGo op maxA delayMs remaining (attempt + 1) (calls + 1)
        ⟨t.result, t.sleeps, t.calls, e :: t.errors⟩

/-- Entry point of the retry loop: `attempt` starts at 1, so exactly
`maxA` iterations are allowed. -/
def retryPhase (op : Nat → CallOutcome) (maxA delayMs : Nat) : RetryTrace :=
  retryPhaseGo op maxA delayMs maxA 1 0

/-- A registered fallback provider, as the manager observes it:
the result of `isAvailable()` (which never throws — `BaseLLMProvider`
converts probe failures into `false`) and the outcome of its single
`sendMessage(request)` call. -/
structure FBProvider where
  available : Bool
  send : CallOutcome
deriving DecidableEq, Repr

/-- Event log of the fallback loop (lines 244-261), one event per
processed entry of `config.fallbackProviders`. -/
inductive FBEvent where
  | skippedPrimary (n : String)
  | skippedUnregistered (n : String)
  | unavailable (n : String)
  | sendFailed (n : String) (e : LLMErr)
  | sendSucceeded (n : String)
deriving DecidableEq, Repr

/-- The candidate name an event is about. -/
def fbeName : FBEvent → String
  | .skippedPrimary n => n
  | .skippedUnregistered n => n
  | .unavailable n => n
  | .sendFailed n _ => n
  | .sendSucceeded n => n

/-- Result of the fallback loop: first successful response if any, the
event per processed candidate in order, and the errors raised by fallback
`sendMessage` calls (caught, logged with `console.warn`, and NOT recorded
into `lastError`). -/
structure FBTrace where
  result : Option LLMResponse
  events : List FBEvent
  errors : List LLMErr
deriving DecidableEq, Repr

/-- The fallback loop of `executeWithRetryAndFallback`: for each name in
list order, skip it if it equals the primary provider name, skip it if
unregistered, otherwise check `isAvailable()` and, if available, call
`sendMessage(request)` once, returning on success and continuing to the
next name on failure. -/
def fallbackPhase (primaryName : String) (registry : String → Option FBProvider) :
    List String → FBTrace
  | [] => ⟨none, [], []⟩
  | n :: rest =>
    if n = primaryName then
      let t := fallbackPhase primaryName registry rest
      ⟨t.result, FBEvent.skippedPrimary n :: t.events, t.errors⟩
    else
      match registry n with
      | none =>
        let t := fallbackPhase primaryName registry rest
        ⟨t.result, FBEvent.skippedUnregistered n :: t.events, t.errors⟩
      | some fb =>
        if fb.available then
          match fb.send with
          | .ok r => ⟨some r, [FBEvent.sendSucceeded n], []⟩
          | .err e =>
            let t := fallbackPhase primaryName registry rest
            ⟨t.result, FBEvent.sendFailed n e :: t.events, e :: t.errors⟩
        else
          let t := fallbackPhase primaryName registry rest
          ⟨t.result, FBEvent.unavailable n :: t.events, t.errors⟩

/-- Final outcome of `executeWithRetryAndFallback` (a resolved response or
a thrown error). -/
inductive RFResult where
  | ok (r : LLMResponse)
  | fail (e : LLMErr)
deriving DecidableEq, Repr

/-- The `LLMError('All providers failed', 'ALL_FAILED', 'manager')`
thrown when `lastError` is still `null`. -/
def allFailedErr : LLMErr :=
  LLMErr.generic "All providers failed" "ALL_FAILED" "manager"

/-- `LLMManagerConfig` after the constructor merge, restricted to the
fields the retry/fallback engine reads. -/
structure ManagerConfig where
  retryAttempts : Option Nat
  retryDelay : Option Nat
  enableFallback : Bool
  fallbackProviders : Option (List String)
deriving DecidableEq, Repr

/-- Full trace of one `executeWithRetryAndFallback` run. `primaryErrors`
are the errors caught in the retry loop (these feed `lastError`);
`fbErrors` are the errors caught in the fallback loop (logged only). -/
structure ExecTrace where
  result : RFResult
  sleeps : List Nat
  primaryCalls : Nat
  fbEvents : List FBEvent
  primaryErrors : List LLMErr
  fbErrors : List LLMErr
deriving DecidableEq, Repr

/-- `LLMManager.executeWithRetryAndFallback` (lines 209-265): run the
retry loop against the primary provider; on success return.  Otherwise,
if `enableFallback` is set and `fallbackProviders` is present (note: in
JavaScript an *empty* list is still truthy), run the fallback loop and
return its first success.  Failing that, throw `lastError` — the last
error caught in the *retry* loop — or the generic ALL_FAILED error if the
retry loop recorded none. -/
def execRF (cfg : ManagerConfig) (op : Nat → CallOutcome) (primaryName : String)
    (registry : String → Option FBProvider) : ExecTrace :=
  let maxA := jsOrNat cfg.retryAttempts 3
  let delayMs := jsOrNat cfg.retryDelay 1000
  let rt := retryPhase op maxA delayMs
  match rt.result with
  | some r => ⟨RFResult.ok r, rt.sleeps, rt.calls, [], rt.errors, []⟩
  | none =>
    let fbRes : FBTrace :=
      match cfg.enableFallback, cfg.fallbackProviders with
      | true, some fbs => fallbackPhase primaryName registry fbs
      | _, _ => ⟨none, [], []⟩
    match fbRes.result with
    | some r => ⟨RFResult.ok r, rt.sleeps, rt.calls, fbRes.events, rt.errors, fbRes.errors⟩
    | none =>
      match rt.errors.getLast? with
      | some e => ⟨RFResult.fail e, rt.sleeps, rt.calls, fbRes.events, rt.errors, fbRes.errors⟩
      | none =>
        ⟨RFResult.fail allFailedErr, rt.sleeps, rt.calls, fbRes.events, rt.errors, fbRes.errors⟩

/-- One line of an OpenAI SSE stream after trimming, as the per-line loop
of `OpenAIProvider.sendMessageStream` (lines 188-229) classifies it:
`data d` is a `data: `-prefixed line whose JSON parses with
`choices[0].delta.content` equal to `d` (possibly empty), `doneSignal` is
the `data: [DONE]` sentinel, and `malformed` covers blank lines, lines
without the `data: ` marker and lines whose JSON fails to parse (all
skipped). -/
inductive SSELine where
  | data (delta : String)
  | doneSignal
  | malformed
deriving DecidableEq, Repr

/-- Per-line chunk production of `OpenAIProvider.sendMessageStream`:
`acc` is the mutable `totalContent`.  A non-empty delta appends to
`totalContent` and yields a non-final chunk; an empty delta is skipped;
the `[DONE]` sentinel yields one final chunk with empty delta and
returns.  If the byte stream ends (`done` from `reader.read()`) before a
`[DONE]` line, the generator simply returns: no final chunk is emitted.
The per-chunk model id (`parsed.model || request.model || default`) is
abstracted as the fixed resolved id `modelId`. -/
def processOpenAILines (modelId : String) : List SSELine → String → List LLMStreamChunk
  | [], _ => []
  | SSELine.doneSignal :: _, acc => [⟨acc, "", true, modelId⟩]
  | SSELine.data d :: rest, acc =>
    if d = "" then processOpenAILines modelId rest acc
    else ⟨acc ++ d, d, false, modelId⟩ :: processOpenAILines modelId rest (acc ++ d)
  | SSELine.malformed :: rest, acc => processOpenAILines modelId rest acc

/-- One trimmed line of an Ollama NDJSON stream, as the per-line loop of
`OllamaProvider.sendMessageStream` (src/unnamed/part_003, lines 148-233)
classifies it: `event d dn` is a JSON object with `message.content` equal
to `d` (possibly empty) and `done` flag `dn`; `malformed` covers blank
lines and unparsable JSON (skipped). -/
inductive OllamaLine where
  | event (delta : String) (done : Bool)
  | malformed
deriving DecidableEq, Repr

/-- Per-line chunk production of `OllamaProvider.sendMessageStream`: a
non-empty delta appends to `totalContent` and yields a non-final chunk;
then, if the same object carries `done: true`, one final chunk with empty
delta is yielded and the generator returns.  A stream that ends without a
`done: true` object emits no final chunk. -/
def processOllamaLines (modelId : String) : List OllamaLine → String → List LLMStreamChunk
  | [], _ => []
  | OllamaLine.event d dn :: rest, acc =>
    let acc2 := if d = "" then acc else acc ++ d
    let head : List LLMStreamChunk :=
      if d = "" then [] else [⟨acc ++ d, d, false, modelId⟩]
    if dn then head ++ [⟨acc2, "", true, modelId⟩]
    else head ++ processOllamaLines modelId rest acc2
  | OllamaLine.malformed :: rest, acc => processOllamaLines modelId rest acc

/-- Concatenation of a list of deltas. -/
def strConcat : List String → String
  | [] => ""
  | s :: rest => s ++ strConcat rest

/-- The expected non-final chunk sequence for deltas `ds` once `acc` has
already accumulated: each chunk carries the running concatenation as its
`content` and the current delta. -/
def cumulativeChunks (modelId : String) : String → List String → List LLMStreamChunk
  | _, [] => []
  | acc, d :: rest =>
    ⟨acc ++ d, d, false, modelId⟩ :: cumulativeChunks modelId (acc ++ d) rest

/-- `LLMUsageStats` from types/llm.ts, with JavaScript numbers modelled
as exact rationals. -/
structure LLMUsageStats where
  totalRequests : ℚ
  totalTokens : ℚ
  totalCost : ℚ
  averageResponseTime : ℚ
  errorRate : ℚ
deriving DecidableEq, Repr

/-- The all-zero statistics created by the `BaseLLMProvider` constructor
and by `resetUsageStats`. -/
def initialUsageStats : LLMUsageStats := ⟨0, 0, 0, 0, 0⟩

/-- `BaseLLMProvider.updateUsageStats` (lines 457-476): reconstruct the
running error count as `Math.round(errorRate * totalRequests)`, bump the
totals, recompute the running average response time and the error rate.
`Math.round` (half away from zero towards positive infinity on the
non-negative values arising here) is `round` on ℚ. -/
def updateUsageStats (s : LLMUsageStats) (tokens cost responseTime : ℚ)
    (isError : Bool) : LLMUsageStats :=
  let totalRequests := s.totalRequests + 1
  let totalErrors : ℤ := round (s.errorRate * s.totalRequests)
  ⟨totalRequests,
   s.totalTokens + tokens,
   s.totalCost + cost,
   (s.averageResponseTime * s.totalRequests + responseTime) / totalRequests,
   ((totalErrors : ℚ) + (if isError then 1 else 0)) / totalRequests⟩

/-- One settled provider call, as fed to `updateUsageStats`. -/
structure UsageEvent where
  tokens : ℚ
  cost : ℚ
  responseTime : ℚ
  isError : Bool
deriving DecidableEq, Repr

/-- Feed one event into the statistics. -/
def applyUsage (s : LLMUsageStats) (ev : UsageEvent) : LLMUsageStats :=
  updateUsageStats s ev.tokens ev.cost ev.responseTime ev.isError

/-- Statistics after a sequence of calls against one freshly created
provider. -/
def runUsage (evts : List UsageEvent) : LLMUsageStats :=
  evts.foldl applyUsage initialUsageStats

/-- Number of events in the sequence that ended in error. -/
def errorCount (evts : List UsageEvent) : Nat :=
  (evts.filter (fun ev => ev.isError)).length

/-- An optional JavaScript string under truthiness: `undefined` and the
empty string are falsy.  Returns the string when truthy. -/
def jsStr (o : Option String) : Option String :=
  match o with
  | some s => if s = "" then none else some s
  | none => none

/-- `BaseLLMProvider.getModelById`: `this._config.models.find(m => m.id === modelId)`. -/
def getModelById (models : List LLMModel) (modelId : String) : Option LLMModel :=
  models.find? (fun m => m.id == modelId)

/-- `request.model || this.getDefaultModel().id` as evaluated by
`BaseLLMProvider.estimateCost`: when `request.model` is falsy the default
model `this._config.models[0]` is dereferenced; with an empty catalog
that dereference is a TypeError, modelled as `none`. -/
def requestModelId (models : List LLMModel) (req : LLMRequest) : Option String :=
  match jsStr req.model with
  | some mid => some mid
  | none => models.head?.map (fun m => m.id)

/-- The `model` field of `OpenAIProvider.buildRequestPayload`
(lines 241-263): the same `request.model || this.getDefaultModel().id`
expression, with the same TypeError on an empty catalog. -/
def payloadModelField (models : List LLMModel) (req : LLMRequest) : Option String :=
  match jsStr req.model with
  | some mid => some mid
  | none => models.head?.map (fun m => m.id)

/-- `BaseLLMProvider.estimateTokens`: `Math.ceil(text.length / 4)`. -/
def estimateTokens (text : String) : Nat :=
  (text.length + 3) / 4

/-- The joined message content whose length drives the input-token
estimate: `request.messages.map(m => m.content).join(' ')`. -/
def joinedContent (req : LLMRequest) : String :=
  String.intercalate " " (req.messages.map (fun m => m.content))

/-- The estimated output token count:
`request.maxTokens || model.maxTokens * 0.1` (a `maxTokens` of 0 is falsy). -/
def outTokens (req : LLMRequest) (m : LLMModel) : ℚ :=
  match req.maxTokens with
  | some n => if n = 0 then (m.maxTokens : ℚ) / 10 else (n : ℚ)
  | none => (m.maxTokens : ℚ) / 10

/-- Body of `BaseLLMProvider.estimateCost` (lines 421-435) once the
model id has been resolved: look the model up, return 0 when it is
missing or has no pricing, otherwise
`(inputTokens/1000)*input + (outputTokens/1000)*output`. -/
def estimateCostCore (models : List LLMModel) (req : LLMRequest) (mid : String) : ℚ :=
  match getModelById models mid with
  | none => 0
  | some m =>
    match m.costPer1kTokens with
    | none => 0
    | some price =>
      ((estimateTokens (joinedContent req) : ℚ) / 1000) * price.input +
        (outTokens req m / 1000) * price.output

/-- `BaseLLMProvider.estimateCost`: resolve the target model id (crashing
— `none` — when the catalog is empty and the request names no model),
then price the request. -/
def estimateCostO (models : List LLMModel) (req : LLMRequest) : Option ℚ :=
  (requestModelId models req).map (fun mid => estimateCostCore models req mid)

/-- `LLMProviderStatus` from types/llm.ts; `lastChecked` is a `Date`
modelled as milliseconds since the epoch. -/
structure LLMProviderStatus where
  available : Bool
  error : Option String
  lastChecked : Int
  responseTime : Option Int
deriving DecidableEq, Repr

/-- Outcome of one `checkAvailability()` probe: elapsed wall time and an
optional failure message. -/
structure ProbeOutcome where
  elapsed : Int
  failure : Option String
deriving DecidableEq, Repr

/-- The probe branch of `BaseLLMProvider.getStatus` (lines 385-404):
measure elapsed time and cache `available: true` with the response time,
or `available: false` with the error message.  Returns the new status and
`true` (= a probe happened); the new cached status is the returned
status. -/
def runProbe (now : Int) (p : ProbeOutcome) : LLMProviderStatus × Bool :=
  match p.failure with
  | none => (⟨true, none, now + p.elapsed, some p.elapsed⟩, true)
  | some msg => (⟨false, some msg, now + p.elapsed, none⟩, true)

/-- `BaseLLMProvider.isStatusFresh` (lines 502-506): the cached status is
fresh when `lastChecked > Date.now() - 5*60*1000`. -/
def isStatusFresh (last : Option LLMProviderStatus) (now : Int) : Bool :=
  match last with
  | none => false
  | some s => decide (now - 5 * 60 * 1000 < s.lastChecked)

/-- `BaseLLMProvider.getStatus` (lines 380-405): return the cached status
unchanged (and perform no probe) when it exists and is fresh; otherwise
probe and cache.  The second component records whether a probe ran; the
cache after the call is `some` of the returned status in both branches. -/
def getStatus (last : Option LLMProviderStatus) (now : Int) (probe : ProbeOutcome) :
    LLMProviderStatus × Bool :=
  match last with
  | some s => if isStatusFresh (some s) now then (s, false) else runProbe now probe
  | none => runProbe now probe

/-- The manager's provider registry and active pointer
(`LLMManager.providers` / `LLMManager.activeProvider`).  The registry is
the insertion-ordered key list of the JavaScript `Map` (values are the
provider objects, irrelevant to the routing claims). -/
structure ManagerState where
  providers : List String
  active : Option String
deriving DecidableEq, Repr

/-- Truthiness of `this.activeProvider`: `null` and the empty string are
falsy. -/
def jsTruthyStr : Option String → Bool
  | none => false
  | some s => s != ""

/-- `LLMManager.registerProvider` (lines 39-46): insert into the `Map`
(an existing key keeps its position) and make the new provider active if
no active provider is set or its name equals the configured
`defaultProvider`. -/
def registerProvider (defaultProvider : Option String) (m : ManagerState)
    (n : String) : ManagerState :=
  let ps := if n ∈ m.providers then m.providers else m.providers ++ [n]
  if jsTruthyStr m.active = false ∨ defaultProvider = some n then ⟨ps, some n⟩
  else ⟨ps, m.active⟩

/-- `LLMManager.unregisterProvider` (lines 48-56): delete from the `Map`;
if the removed provider was active, fall back to the first remaining
registered provider, or to no active provider. -/
def unregisterProvider (m : ManagerState) (n : String) : ManagerState :=
  let ps := m.providers.erase n
  if m.active = some n then ⟨ps, ps.head?⟩ else ⟨ps, m.active⟩

/-- `LLMManager.setActiveProvider` (lines 66-72): succeeds (returning
`true`) only for a registered name; otherwise no side effect. -/
def setActiveProvider (m : ManagerState) (n : String) : ManagerState × Bool :=
  if n ∈ m.providers then (⟨m.providers, some n⟩, true) else (m, false)

/-- Registry operations available to callers. -/
inductive MOp where
  | register (n : String)
  | unregister (n : String)
  | setActive (n : String)
deriving DecidableEq, Repr

/-- Apply one registry operation under a configured default provider. -/
def applyMOp (d : Option String) (m : ManagerState) : MOp → ManagerState
  | .register n => registerProvider d m n
  | .unregister n => unregisterProvider m n
  | .setActive n => (setActiveProvider m n).1

/-- A freshly constructed manager: no providers, no active provider. -/
def initialManagerState : ManagerState := ⟨[], none⟩

/-- Run a sequence of registry operations from the initial state. -/
def runMOps (d : Option String) (ops : List MOp) : ManagerState :=
  ops.foldl (applyMOp d) initialManagerState

/-- A provider that is rate-limited (retry-after hint of 2 seconds) on
its first three calls and succeeds on the fourth. -/
def rlOp : Nat → CallOutcome :=
  fun i =>
    if i < 3 then CallOutcome.err (LLMErr.rateLimit "p" (some 2))
    else CallOutcome.ok ⟨"done", "m"⟩

/-- A provider that is rate-limited (retry-after hint of 2 seconds) on
its first two calls and succeeds on the third. -/
def rl2Op : Nat → CallOutcome :=
  fun i =>
    if i < 2 then CallOutcome.err (LLMErr.rateLimit "p" (some 2))
    else CallOutcome.ok ⟨"done", "m"⟩

/-- A generic error raised by the primary provider. -/
def primaryBoom : LLMErr := LLMErr.generic "primary boom" "BOOM" "primary"

/-- A generic error raised later by a fallback provider. -/
def fallbackBoom : LLMErr := LLMErr.generic "fallback boom" "FBOOM" "fb"

/-- A registry with a single available fallback provider "fb" whose
`sendMessage` fails. -/
def failFbRegistry : String → Option FBProvider :=
  fun n => if n = "fb" then some ⟨true, CallOutcome.err fallbackBoom⟩ else none

/-- A provider whose every call fails with an authentication error. -/
def authOp : Nat → CallOutcome := fun _ => CallOutcome.err (LLMErr.auth "p")

/-- A registry with a single available fallback provider "fb" whose
`sendMessage` succeeds. -/
def okFbRegistry : String → Option FBProvider :=
  fun n => if n = "fb" then some ⟨true, CallOutcome.ok ⟨"fb-says", "fbm"⟩⟩ else none

/-- Registry for the fallback-order scenario: "fb1" is registered but
unavailable, "fb2" is registered and available. -/
def p6Registry : String → Option FBProvider :=
  fun n =>
    if n = "fb1" then some ⟨false, CallOutcome.ok ⟨"one", "m1"⟩⟩
    else if n = "fb2" then some ⟨true, CallOutcome.ok ⟨"two", "m2"⟩⟩
    else none

/-- The model of spec Scenario C: `maxTokens` 100 and
`costPer1kTokens {input: 0.01, output: 0.02}`. -/
def scModel : LLMModel := ⟨"m1", "Model One", 1000, 100, true, false, some ⟨1 / 100, 1 / 50⟩⟩

/-- A 400-character message body. -/
def msg400 : String := String.mk (List.replicate 400 'x')

/-- The request of spec Scenario C: one 400-character message, no
explicit model and no explicit `maxTokens`. -/
def scRequest : LLMRequest := ⟨[⟨LLMRole.user, msg400⟩], none, none, none, none⟩

example : retryPhase (fun _ => CallOutcome.err (LLMErr.auth "p")) 3 1000
    = ⟨none, [], 1, [LLMErr.auth "p"]⟩ := by decide

example :
    execRF ⟨some 3, some 1000, false, none⟩ rlOp "p" (fun _ => none)
      = ⟨RFResult.fail (LLMErr.rateLimit "p" (some 2)), [2000, 2000, 2000], 3, [],
         List.replicate 3 (LLMErr.rateLimit "p" (some 2)), []⟩ := by decide

example :
    execRF ⟨some 1, some 1000, true, some ["fb"]⟩ (fun _ => CallOutcome.err primaryBoom)
        "primary" failFbRegistry
      = ⟨RFResult.fail primaryBoom, [], 1, [FBEvent.sendFailed "fb" fallbackBoom],
         [primaryBoom], [fallbackBoom]⟩ := by decide

example :
    fallbackPhase "p" p6Registry ["p", "fb1", "fb2"]
      = ⟨some ⟨"two", "m2"⟩,
         [FBEvent.skippedPrimary "p", FBEvent.unavailable "fb1", FBEvent.sendSucceeded "fb2"],
         []⟩ := by decide

example : estimateCostO [scModel] scRequest = some (12 / 10000) := by
  have h1 : requestModelId [scModel] scRequest = some "m1" := rfl
  have h2 : getModelById [scModel] "m1" = some scModel := rfl
  have htok : estimateTokens (joinedContent scRequest) = 100 := by decide
  have hout : outTokens scRequest scModel = 10 := by norm_num [outTokens, scRequest, scModel]
  simp only [estimateCostO, h1, Option.map_some']
  simp only [estimateCostCore, h2, htok, hout]
  norm_num [scModel]

example : runMOps none [MOp.register "alpha", MOp.register "beta"]
    = ⟨["alpha", "beta"], some "alpha"⟩ := by decide

example : runMOps none [MOp.register "alpha", MOp.register "beta", MOp.unregister "alpha"]
    = ⟨["beta"], some "beta"⟩ := by decide

example :
    retryPhase (fun i => if i < 2 then CallOutcome.err (LLMErr.generic "boom" "E" "p")
      else CallOutcome.ok ⟨"y", "m"⟩) 3 1000
    = ⟨some ⟨"y", "m"⟩, [1000, 2000], 3,
       [LLMErr.generic "boom" "E" "p", LLMErr.generic "boom" "E" "p"]⟩ := by decide

/-! ## Shared helper lemmas -/

lemma jsOrNat_pos (o : Option Nat) (d : Nat) (hd : 0 < d) : 0 < jsOrNat o d := by
  cases o with
  | none => exact hd
  | some n =>
    simp only [jsOrNat]
    split <;> omega

lemma jsOrNat_some_ne (m : Nat) (hm : m ≠ 0) : jsOrNat (some m) 3 = m := by
  simp [jsOrNat, hm]

lemma isRLWithHint_rateLimit (p : String) (ra : Nat) (hra : ra ≠ 0) :
    isRLWithHint (LLMErr.rateLimit p (some ra)) = true := by
  simp [isRLWithHint, hra]

/-- A run of `k` rate-limited failures followed by a success: each
rate-limited failure sleeps `ra * 1000` ms and advances both the call
index and the loop counter, so `k + 1` calls in total are made, as long
as `k` is below the remaining iteration budget. -/
lemma retry_rl_then_ok (op : Nat → CallOutcome) (maxA delayMs : Nat) (p : String)
    (ra : Nat) (r : LLMResponse) (hra : ra ≠ 0) :
    ∀ (k remaining attempt calls : Nat), k < remaining →
      (∀ j, j < k → op (calls + j) = CallOutcome.err (LLMErr.rateLimit p (some ra))) →
      op (calls + k) = CallOutcome.ok r →
      retryPhaseGo op maxA delayMs remaining attempt calls =
        ⟨some r, List.replicate k (ra * 1000), calls + k + 1,
         List.replicate k (LLMErr.rateLimit p (some ra))⟩ := by
  intro k
  induction k with
  | zero =>
    intro remaining attempt calls hrem hall hok
    cases remaining with
    | zero => omega
    | succ rem =>
      have hok0 : op calls = CallOutcome.ok r := by simpa using hok
      simp [retryPhaseGo, hok0]
  | succ k ih =>
    intro remaining attempt calls hrem hall hok
    cases remaining with
    | zero => omega
    | succ rem =>
      have h0 : op calls = CallOutcome.err (LLMErr.rateLimit p (some ra)) := by
        simpa using hall 0 (Nat.succ_pos k)
      have hrec := ih rem (attempt + 1) (calls + 1) (by omega)
        (fun j hj => by
          have := hall (j + 1) (by omega)
          simpa [Nat.add_comm, Nat.add_left_comm, Nat.add_assoc] using this)
        (by
          have : calls + 1 + k = calls + (k + 1) := by omega
          rw [this]
          exact hok)
      simp only [retryPhaseGo, h0, isRLWithHint_rateLimit p ra hra, if_true, hrec]
      simp only [rlSleepMs, List.replicate_succ, RetryTrace.mk.injEq, true_and, and_true]
      omega

/-- A provider that is rate-limited with a hint on every call: every loop
iteration sleeps and consumes an iteration, so exactly `remaining` calls
are made and the loop exits with no result. -/
lemma retry_rl_all (op : Nat → CallOutcome) (maxA delayMs : Nat) (p : String)
    (ra : Nat) (hra : ra ≠ 0)
    (hall : ∀ j, op j = CallOutcome.err (LLMErr.rateLimit p (some ra))) :
    ∀ (remaining attempt calls : Nat),
      retryPhaseGo op maxA delayMs remaining attempt calls =
        ⟨none, List.replicate remaining (ra * 1000), calls + remaining,
         List.replicate remaining (LLMErr.rateLimit p (some ra))⟩ := by
  intro remaining
  induction remaining with
  | zero =>
    intro attempt calls
    simp [retryPhaseGo]
  | succ rem ih =>
    intro attempt calls
    simp only [retryPhaseGo, hall calls, isRLWithHint_rateLimit p ra hra, if_true,
      ih (attempt + 1) (calls + 1)]
    simp only [rlSleepMs, List.replicate_succ, RetryTrace.mk.injEq, true_and, and_true]
    omega

/-! ## Claim C1 — rate-limit handling and the retry budget -/

/-- C1 counterexample: the claim says a rate-limited attempt with a
retry-after hint re-enters the attempt loop at the same attempt count and
does not count against the retry budget, so with `retryAttempts = 3` and
a provider rate-limited on its first three calls and succeeding on the
fourth, the Manager would keep retrying and return the success.  In the
code the `continue` statement still increments the `for`-loop counter:
only three calls are made ([2000, 2000, 2000] ms slept) and the
rate-limit error is surfaced; the fourth, successful call is never
reached. -/
theorem claim_C1_counterexample :
    execRF ⟨some 3, some 1000, false, none⟩ rlOp "p" (fun _ => none)
        = ⟨RFResult.fail (LLMErr.rateLimit "p" (some 2)), [2000, 2000, 2000], 3, [],
           List.replicate 3 (LLMErr.rateLimit "p" (some 2)), []⟩
      ∧ rlOp 3 = CallOutcome.ok ⟨"done", "m"⟩ := by
  constructor
  · decide
  · decide

/-- C1 (amended): on a rate-limit error with a truthy retry-after hint
the Manager sleeps `retryAfter` seconds and proceeds to the next attempt,
skipping only the linear backoff sleep; the rate-limited attempt DOES
consume a retry slot.  Concretely: (1) with `retryAttempts = m`, a
provider rate-limited on its first `k` calls (`k < m`) and succeeding on
call `k` yields the success after exactly `k + 1` calls and `k` sleeps of
`retryAfter * 1000` ms; (2) a provider rate-limited on every call
exhausts the `maxA` loop iterations after exactly `maxA` calls and
`maxA` sleeps, leaving no result. -/
theorem claim_C1 :
    (∀ (cfg : ManagerConfig) (op : Nat → CallOutcome) (primary : String)
        (reg : String → Option FBProvider) (p : String) (ra : Nat) (r : LLMResponse)
        (k m : Nat),
      cfg.retryAttempts = some m → m ≠ 0 → ra ≠ 0 → k < m →
      (∀ j, j < k → op j = CallOutcome.err (LLMErr.rateLimit p (some ra))) →
      op k = CallOutcome.ok r →
      execRF cfg op primary reg =
        ⟨RFResult.ok r, List.replicate k (ra * 1000), k + 1, [],
         List.replicate k (LLMErr.rateLimit p (some ra)), []⟩) ∧
    (∀ (op : Nat → CallOutcome) (maxA delayMs : Nat) (p : String) (ra : Nat),
      ra ≠ 0 →
      (∀ j, op j = CallOutcome.err (LLMErr.rateLimit p (some ra))) →
      retryPhase op maxA delayMs =
        ⟨none, List.replicate maxA (ra * 1000), maxA,
         List.replicate maxA (LLMErr.rateLimit p (some ra))⟩) := by
  constructor
  · intro cfg op primary reg p ra r k m hm hm0 hra hk hall hok
    have hrt := retry_rl_then_ok op m (jsOrNat cfg.retryDelay 1000) p ra r hra k m 1 0 hk
      (fun j hj => by simpa using hall j hj) (by simpa using hok)
    simp only [execRF, retryPhase, hm, jsOrNat_some_ne m hm0, hrt]
    norm_num
  · intro op maxA delayMs p ra hra hall
    have := retry_rl_all op maxA delayMs p ra hra hall maxA 1 0
    simpa [retryPhase] using this

/-- C1 witness: the amended theorem applied to a provider rate-limited
twice (retryAfter 2 s) and succeeding on its third call, under the
default budget of 3: the success is returned after 3 calls and two
2000 ms sleeps. -/
theorem claim_C1_witness :
    execRF ⟨some 3, some 1000, false, none⟩ rl2Op "p" (fun _ => none)
      = ⟨RFResult.ok ⟨"done", "m"⟩, [2000, 2000], 3, [],
         List.replicate 2 (LLMErr.rateLimit "p" (some 2)), []⟩ :=
  claim_C1.1 ⟨some 3, some 1000, false, none⟩ rl2Op "p" (fun _ => none) "p" 2
    ⟨"done", "m"⟩ 2 3 rfl (by decide) (by decide) (by decide)
    (fun j hj => by simp [rl2Op, hj]) (by decide)

/-! ## Claim C2 — authentication errors short-circuit to fallback -/

/-- C2: against a provider whose every call fails with an authentication
error (code AUTH_ERROR), the Manager makes exactly one primary attempt,
requests no sleeps, and then runs the fallback phase: the trace shows one
call, an empty sleep list, the fallback loop's events, and the final
result is the fallback's first success or, failing that, the
authentication error itself. -/
theorem claim_C2 :
    ∀ (cfg : ManagerConfig) (op : Nat → CallOutcome) (primary p : String)
      (reg : String → Option FBProvider) (fbs : List String),
      (∀ i, op i = CallOutcome.err (LLMErr.auth p)) →
      cfg.enableFallback = true → cfg.fallbackProviders = some fbs →
      (execRF cfg op primary reg).primaryCalls = 1 ∧
      (execRF cfg op primary reg).sleeps = [] ∧
      (execRF cfg op primary reg).fbEvents = (fallbackPhase primary reg fbs).events ∧
      (execRF cfg op primary reg).result =
        (match (fallbackPhase primary reg fbs).result with
         | some r => RFResult.ok r
         | none => RFResult.fail (LLMErr.auth p)) := by
  intro cfg op primary p reg fbs hop hef hfb
  have hmax : 0 < jsOrNat cfg.retryAttempts 3 := jsOrNat_pos _ _ (by norm_num)
  obtain ⟨m, hm⟩ : ∃ m, jsOrNat cfg.retryAttempts 3 = m + 1 :=
    ⟨jsOrNat cfg.retryAttempts 3 - 1, by omega⟩
  have hrt : retryPhase op (jsOrNat cfg.retryAttempts 3) (jsOrNat cfg.retryDelay 1000)
      = ⟨none, [], 1, [LLMErr.auth p]⟩ := by
    rw [retryPhase, hm]
    simp [retryPhaseGo, hop 0, isRLWithHint, LLMErr.code]
  simp only [execRF, hrt, hef, hfb]
  cases hres : (fallbackPhase primary reg fbs).result with
  | some r => simp [hres]
  | none => simp [hres]

/-- C2 witness: a provider always failing with an authentication error,
fallback list ["fb"] with an available, succeeding fallback: one primary
call, no sleeps, and the fallback's response is returned. -/
theorem claim_C2_witness :
    (execRF ⟨some 3, some 1000, true, some ["fb"]⟩ authOp "primary" okFbRegistry).primaryCalls
        = 1 ∧
      (execRF ⟨some 3, some 1000, true, some ["fb"]⟩ authOp "primary" okFbRegistry).sleeps
        = [] ∧
      (execRF ⟨some 3, some 1000, true, some ["fb"]⟩ authOp "primary" okFbRegistry).fbEvents
        = (fallbackPhase "primary" okFbRegistry ["fb"]).events ∧
      (execRF ⟨some 3, some 1000, true, some ["fb"]⟩ authOp "primary" okFbRegistry).result
        = (match (fallbackPhase "primary" okFbRegistry ["fb"]).result with
           | some r => RFResult.ok r
           | none => RFResult.fail (LLMErr.auth "p")) :=
  claim_C2 ⟨some 3, some 1000, true, some ["fb"]⟩ authOp "primary" "p" okFbRegistry ["fb"]
    (fun _ => rfl) rfl rfl

/-! ## Claim C3 — fallback iteration order and skipping -/

lemma fbEventsNames (primary : String) (reg : String → Option FBProvider) :
    ∀ names : List String,
      ((fallbackPhase primary reg names).events).map fbeName
        = names.take ((fallbackPhase primary reg names).events).length := by
  intro names
  induction names with
  | nil => simp [fallbackPhase]
  | cons m rest ih =>
    by_cases hp : m = primary
    · simp [fallbackPhase, hp, fbeName, ih, List.take_succ_cons]
    · cases hreg : reg m with
      | none => simp [fallbackPhase, hp, hreg, fbeName, ih, List.take_succ_cons]
      | some fb =>
        cases hav : fb.available with
        | false => simp [fallbackPhase, hp, hreg, hav, fbeName, ih, List.take_succ_cons]
        | true =>
          cases hsend : fb.send with
          | ok r => simp [fallbackPhase, hp, hreg, hav, hsend, fbeName]
          | err e => simp [fallbackPhase, hp, hreg, hav, hsend, fbeName, ih, List.take_succ_cons]

lemma fbNoneAll (primary : String) (reg : String → Option FBProvider) :
    ∀ names : List String,
      (fallbackPhase primary reg names).result = none →
      ((fallbackPhase primary reg names).events).map fbeName = names := by
  intro names
  induction names with
  | nil => intro _; simp [fallbackPhase]
  | cons m rest ih =>
    intro h
    by_cases hp : m = primary
    · simp only [fallbackPhase, if_pos hp] at h ⊢
      simp [fbeName, ih h]
    · cases hreg : reg m with
      | none =>
        simp only [fallbackPhase, if_neg hp, hreg] at h ⊢
        simp [fbeName, ih h]
      | some fb =>
        cases hav : fb.available with
        | false =>
          simp only [fallbackPhase, if_neg hp, hreg, Bool.false_eq_true, if_false, hav] at h ⊢
          simp [fbeName, ih h]
        | true =>
          cases hsend : fb.send with
          | ok r => simp [fallbackPhase, hp, hreg, hav, hsend] at h
          | err e =>
            simp only [fallbackPhase, if_neg hp, hreg, hav, if_true, hsend] at h ⊢
            simp [fbeName, ih h]

lemma fbSendFailedSpec (primary : String) (reg : String → Option FBProvider) :
    ∀ (names : List String) (n : String) (e : LLMErr),
      FBEvent.sendFailed n e ∈ (fallbackPhase primary reg names).events →
      n ≠ primary ∧ ∃ fb, reg n = some fb ∧ fb.available = true ∧
        fb.send = CallOutcome.err e := by
  intro names
  induction names with
  | nil => intro n e h; simp [fallbackPhase] at h
  | cons m rest ih =>
    intro n e h
    by_cases hp : m = primary
    · simp [fallbackPhase, hp] at h
      exact ih n e h
    · cases hreg : reg m with
      | none =>
        simp [fallbackPhase, hp, hreg] at h
        exact ih n e h
      | some fb =>
        cases hav : fb.available with
        | false =>
          simp [fallbackPhase, hp, hreg, hav] at h
          exact ih n e h
        | true =>
          cases hsend : fb.send with
          | ok r => simp [fallbackPhase, hp, hreg, hav, hsend] at h
          | err e2 =>
            simp [fallbackPhase, hp, hreg, hav, hsend] at h
            rcases h with ⟨hn, he⟩ | h
            · subst hn; subst he
              exact ⟨hp, fb, hreg, hav, hsend⟩
            · exact ih n e h

lemma fbSendSucceededSpec (primary : String) (reg : String → Option FBProvider) :
    ∀ (names : List String) (n : String),
      FBEvent.sendSucceeded n ∈ (fallbackPhase primary reg names).events →
      n ≠ primary ∧ ∃ fb, reg n = some fb ∧ fb.available = true ∧
        ∃ r, fb.send = CallOutcome.ok r ∧ (fallbackPhase primary reg names).result = some r := by
  intro names
  induction names with
  | nil => intro n h; simp [fallbackPhase] at h
  | cons m rest ih =>
    intro n h
    by_cases hp : m = primary
    · simp only [fallbackPhase, if_pos hp] at h ⊢
      simp only [List.mem_cons] at h
      rcases h with h | h
      · simp at h
      · exact ih n h
    · cases hreg : reg m with
      | none =>
        simp only [fallbackPhase, if_neg hp, hreg] at h ⊢
        simp only [List.mem_cons] at h
        rcases h with h | h
        · simp at h
        · exact ih n h
      | some fb =>
        cases hav : fb.available with
        | false =>
          simp only [fallbackPhase, if_neg hp, hreg, hav, Bool.false_eq_true, if_false] at h ⊢
          simp only [List.mem_cons] at h
          rcases h with h | h
          · simp at h
          · exact ih n h
        | true =>
          cases hsend : fb.send with
          | ok r =>
            simp only [fallbackPhase, if_neg hp, hreg, hav, if_true, hsend] at h ⊢
            simp only [List.mem_cons, List.not_mem_nil, or_false] at h
            simp only [FBEvent.sendSucceeded.injEq] at h
            subst h
            exact ⟨hp, fb, hreg, hav, r, hsend, rfl⟩
          | err e =>
            simp only [fallbackPhase, if_neg hp, hreg, hav, if_true, hsend] at h ⊢
            simp only [List.mem_cons] at h
            rcases h with h | h
            · simp at h
            · exact ih n h

lemma fbUnavailableSpec (primary : String) (reg : String → Option FBProvider) :
    ∀ (names : List String) (n : String),
      FBEvent.unavailable n ∈ (fallbackPhase primary reg names).events →
      n ≠ primary ∧ ∃ fb, reg n = some fb ∧ fb.available = false := by
  intro names
  induction names with
  | nil => intro n h; simp [fallbackPhase] at h
  | cons m rest ih =>
    intro n h
    by_cases hp : m = primary
    · simp [fallbackPhase, hp] at h
      exact ih n h
    · cases hreg : reg m with
      | none =>
        simp [fallbackPhase, hp, hreg] at h
        exact ih n h
      | some fb =>
        cases hav : fb.available with
        | false =>
          simp [fallbackPhase, hp, hreg, hav] at h
          rcases h with h | h
          · subst h
            exact ⟨hp, fb, hreg, hav⟩
          · exact ih n h
        | true =>
          cases hsend : fb.send with
          | ok r => simp [fallbackPhase, hp, hreg, hav, hsend] at h
          | err e =>
            simp [fallbackPhase, hp, hreg, hav, hsend] at h
            exact ih n h

lemma fbSkippedUnregSpec (primary : String) (reg : String → Option FBProvider) :
    ∀ (names : List String) (n : String),
      FBEvent.skippedUnregistered n ∈ (fallbackPhase primary reg names).events →
      n ≠ primary ∧ reg n = none := by
  intro names
  induction names with
  | nil => intro n h; simp [fallbackPhase] at h
  | cons m rest ih =>
    intro n h
    by_cases hp : m = primary
    · simp [fallbackPhase, hp] at h
      exact ih n h
    · cases hreg : reg m with
      | none =>
        simp [fallbackPhase, hp, hreg] at h
        rcases h with h | h
        · subst h
          exact ⟨hp, hreg⟩
        · exact ih n h
      | some fb =>
        cases hav : fb.available with
        | false =>
          simp [fallbackPhase, hp, hreg, hav] at h
          exact ih n h
        | true =>
          cases hsend : fb.send with
          | ok r => simp [fallbackPhase, hp, hreg, hav, hsend] at h
          | err e =>
            simp [fallbackPhase, hp, hreg, hav, hsend] at h
            exact ih n h

lemma fbSkippedPrimarySpec (primary : String) (reg : String → Option FBProvider) :
    ∀ (names : List String) (n : String),
      FBEvent.skippedPrimary n ∈ (fallbackPhase primary reg names).events →
      n = primary := by
  intro names
  induction names with
  | nil => intro n h; simp [fallbackPhase] at h
  | cons m rest ih =>
    intro n h
    by_cases hp : m = primary
    · simp [fallbackPhase, hp] at h
      rcases h with h | h
      · subst_vars; rfl
      · exact ih n h
    · cases hreg : reg m with
      | none =>
        simp [fallbackPhase, hp, hreg] at h
        exact ih n h
      | some fb =>
        cases hav : fb.available with
        | false =>
          simp [fallbackPhase, hp, hreg, hav] at h
          exact ih n h
        | true =>
          cases hsend : fb.send with
          | ok r => simp [fallbackPhase, hp, hreg, hav, hsend] at h
          | err e =>
            simp [fallbackPhase, hp, hreg, hav, hsend] at h
            exact ih n h

lemma fbSomeLast (primary : String) (reg : String → Option FBProvider) :
    ∀ (names : List String) (r : LLMResponse),
      (fallbackPhase primary reg names).result = some r →
      ∃ n, ((fallbackPhase primary reg names).events).getLast?
        = some (FBEvent.sendSucceeded n) := by
  intro names
  induction names with
  | nil => intro r h; simp [fallbackPhase] at h
  | cons m rest ih =>
    intro r h
    by_cases hp : m = primary
    · simp only [fallbackPhase, if_pos hp] at h ⊢
      obtain ⟨n, hn⟩ := ih r h
      refine ⟨n, ?_⟩
      cases he : (fallbackPhase primary reg rest).events with
      | nil => rw [he] at hn; simp at hn
      | cons b l => rw [he] at hn; rw [List.getLast?_cons_cons]; exact hn
    · cases hreg : reg m with
      | none =>
        simp only [fallbackPhase, if_neg hp, hreg] at h ⊢
        obtain ⟨n, hn⟩ := ih r h
        refine ⟨n, ?_⟩
        cases he : (fallbackPhase primary reg rest).events with
        | nil => rw [he] at hn; simp at hn
        | cons b l => rw [he] at hn; rw [List.getLast?_cons_cons]; exact hn
      | some fb =>
        cases hav : fb.available with
        | false =>
          simp only [fallbackPhase, if_neg hp, hreg, hav, Bool.false_eq_true, if_false] at h ⊢
          obtain ⟨n, hn⟩ := ih r h
          refine ⟨n, ?_⟩
          cases he : (fallbackPhase primary reg rest).events with
          | nil => rw [he] at hn; simp at hn
          | cons b l => rw [he] at hn; rw [List.getLast?_cons_cons]; exact hn
        | true =>
          cases hsend : fb.send with
          | ok r2 =>
            simp only [fallbackPhase, if_neg hp, hreg, hav, if_true, hsend]
            exact ⟨m, rfl⟩
          | err e =>
            simp only [fallbackPhase, if_neg hp, hreg, hav, if_true, hsend] at h ⊢
            obtain ⟨n, hn⟩ := ih r h
            refine ⟨n, ?_⟩
            cases he : (fallbackPhase primary reg rest).events with
            | nil => rw [he] at hn; simp at hn
            | cons b l => rw [he] at hn; rw [List.getLast?_cons_cons]; exact hn

/-- C3: once the primary provider's retry phase ends without a result,
and fallback is enabled with a configured list, the Manager runs the
fallback loop and returns its first success (first conjunct).  The
fallback loop processes candidate names in list order, one event per
processed entry (second and third conjuncts: the processed names are a
prefix of the list, the whole list when no candidate succeeds);
`sendMessage` is called — exactly once per processed entry — only for
candidates that are not the primary provider, are registered, and
reported available (fourth and fifth conjuncts); unavailable, unknown
and primary-named entries are skipped with the corresponding checks
(sixth to eighth conjuncts); and the loop stops at the first success
(ninth conjunct: a successful run's last event is the successful send),
so the primary provider is never re-attempted as a fallback. -/
theorem claim_C3 :
    (∀ (cfg : ManagerConfig) (op : Nat → CallOutcome) (primary : String)
        (reg : String → Option FBProvider) (fbs : List String) (r : LLMResponse),
      cfg.enableFallback = true → cfg.fallbackProviders = some fbs →
      (retryPhase op (jsOrNat cfg.retryAttempts 3) (jsOrNat cfg.retryDelay 1000)).result
          = none →
      (fallbackPhase primary reg fbs).result = some r →
      (execRF cfg op primary reg).result = RFResult.ok r ∧
      (execRF cfg op primary reg).fbEvents = (fallbackPhase primary reg fbs).events) ∧
    (∀ (primary : String) (reg : String → Option FBProvider) (names : List String),
      ((fallbackPhase primary reg names).events).map fbeName
        = names.take ((fallbackPhase primary reg names).events).length) ∧
    (∀ (primary : String) (reg : String → Option FBProvider) (names : List String),
      (fallbackPhase primary reg names).result = none →
      ((fallbackPhase primary reg names).events).map fbeName = names) ∧
    (∀ (primary : String) (reg : String → Option FBProvider) (names : List String)
        (n : String) (e : LLMErr),
      FBEvent.sendFailed n e ∈ (fallbackPhase primary reg names).events →
      n ≠ primary ∧ ∃ fb, reg n = some fb ∧ fb.available = true ∧
        fb.send = CallOutcome.err e) ∧
    (∀ (primary : String) (reg : String → Option FBProvider) (names : List String)
        (n : String),
      FBEvent.sendSucceeded n ∈ (fallbackPhase primary reg names).events →
      n ≠ primary ∧ ∃ fb, reg n = some fb ∧ fb.available = true ∧
        ∃ r, fb.send = CallOutcome.ok r ∧ (fallbackPhase primary reg names).result = some r) ∧
    (∀ (primary : String) (reg : String → Option FBProvider) (names : List String)
        (n : String),
      FBEvent.unavailable n ∈ (fallbackPhase primary reg names).events →
      n ≠ primary ∧ ∃ fb, reg n = some fb ∧ fb.available = false) ∧
    (∀ (primary : String) (reg : String → Option FBProvider) (names : List String)
        (n : String),
      FBEvent.skippedUnregistered n ∈ (fallbackPhase primary reg names).events →
      n ≠ primary ∧ reg n = none) ∧
    (∀ (primary : String) (reg : String → Option FBProvider) (names : List String)
        (n : String),
      FBEvent.skippedPrimary n ∈ (fallbackPhase primary reg names).events →
      n = primary) ∧
    (∀ (primary : String) (reg : String → Option FBProvider) (names : List String)
        (r : LLMResponse),
      (fallbackPhase primary reg names).result = some r →
      ∃ n, ((fallbackPhase primary reg names).events).getLast?
        = some (FBEvent.sendSucceeded n)) := by
  refine ⟨?_, fbEventsNames, fbNoneAll, fbSendFailedSpec, fbSendSucceededSpec,
    fbUnavailableSpec, fbSkippedUnregSpec, fbSkippedPrimarySpec, fbSomeLast⟩
  intro cfg op primary reg fbs r hef hfb hrt hres
  simp only [execRF, hef, hfb, hrt, hres]
  exact ⟨trivial, trivial⟩

/-- C3 witness: primary "p" always failing generically with
`retryAttempts = 1`, fallback list ["p", "fb1", "fb2"] where "fb1" is
unavailable and "fb2" available: the Manager's final result is "fb2"'s
response, and the successful fallback "fb2" is distinct from the primary
and was registered, available and called once. -/
theorem claim_C3_witness :
    ((execRF ⟨some 1, some 1000, true, some ["p", "fb1", "fb2"]⟩
        (fun _ => CallOutcome.err primaryBoom) "p" p6Registry).result
          = RFResult.ok ⟨"two", "m2"⟩ ∧
      (execRF ⟨some 1, some 1000, true, some ["p", "fb1", "fb2"]⟩
        (fun _ => CallOutcome.err primaryBoom) "p" p6Registry).fbEvents
          = (fallbackPhase "p" p6Registry ["p", "fb1", "fb2"]).events) ∧
    ("fb2" ≠ "p" ∧ ∃ fb, p6Registry "fb2" = some fb ∧ fb.available = true ∧
      ∃ r, fb.send = CallOutcome.ok r ∧
        (fallbackPhase "p" p6Registry ["p", "fb1", "fb2"]).result = some r) :=
  ⟨claim_C3.1 ⟨some 1, some 1000, true, some ["p", "fb1", "fb2"]⟩
      (fun _ => CallOutcome.err primaryBoom) "p" p6Registry ["p", "fb1", "fb2"]
      ⟨"two", "m2"⟩ rfl rfl (by decide) (by decide),
    claim_C3.2.2.2.2.1 "p" p6Registry ["p", "fb1", "fb2"] "fb2" (by decide)⟩

/-! ## Claim C4 — which error is surfaced when everything fails -/

/-- C4 counterexample: primary fails once with a generic error, the only
fallback is available but its `sendMessage` fails afterwards with a
different error.  The most recent concrete error encountered is the
fallback's (`fallbackBoom`, last in the combined encounter order), yet
the error surfaced is the primary phase's `primaryBoom`: the fallback
loop's catch block does not record into `lastError`. -/
theorem claim_C4_counterexample :
    (execRF ⟨some 1, some 1000, true, some ["fb"]⟩ (fun _ => CallOutcome.err primaryBoom)
        "primary" failFbRegistry).result = RFResult.fail primaryBoom ∧
    ((execRF ⟨some 1, some 1000, true, some ["fb"]⟩ (fun _ => CallOutcome.err primaryBoom)
          "primary" failFbRegistry).primaryErrors ++
        (execRF ⟨some 1, some 1000, true, some ["fb"]⟩ (fun _ => CallOutcome.err primaryBoom)
          "primary" failFbRegistry).fbErrors).getLast? = some fallbackBoom ∧
    primaryBoom ≠ fallbackBoom := by
  refine ⟨by decide, by decide, by decide⟩

/-- C4 (amended): when every retry and every fallback avenue fails, the
error surfaced to the caller is the most recent error recorded during
the PRIMARY provider's retry phase (errors raised by fallback providers
are caught, logged, and never surfaced); the generic ALL_FAILED error is
surfaced only when the retry phase recorded no error at all. -/
theorem claim_C4 :
    ∀ (cfg : ManagerConfig) (op : Nat → CallOutcome) (primary : String)
      (reg : String → Option FBProvider) (e : LLMErr),
      (execRF cfg op primary reg).result = RFResult.fail e →
      (execRF cfg op primary reg).primaryErrors.getLast? = some e ∨
        (e = allFailedErr ∧ (execRF cfg op primary reg).primaryErrors = []) := by
  intro cfg op primary reg e h
  simp only [execRF] at h ⊢
  split at h
  next r heq => simp_all
  next heq =>
    split at h
    next r heq2 => simp_all
    next heq2 =>
      split at h
      next e0 heq3 => simp_all
      next heq3 =>
        simp only [List.getLast?_eq_none_iff] at heq3
        simp_all

/-- C4 witness: the amended theorem applied at the counterexample input;
the surfaced error `primaryBoom` is indeed the last primary-phase
error. -/
theorem claim_C4_witness :
    (execRF ⟨some 1, some 1000, true, some ["fb"]⟩ (fun _ => CallOutcome.err primaryBoom)
        "primary" failFbRegistry).primaryErrors.getLast? = some primaryBoom ∨
      (primaryBoom = allFailedErr ∧
        (execRF ⟨some 1, some 1000, true, some ["fb"]⟩
          (fun _ => CallOutcome.err primaryBoom) "primary" failFbRegistry).primaryErrors
            = []) :=
  claim_C4 ⟨some 1, some 1000, true, some ["fb"]⟩ (fun _ => CallOutcome.err primaryBoom)
    "primary" failFbRegistry primaryBoom (by decide)

/-! ## Claim C5 — streaming chunk sequences -/

lemma procOpenAI_wellformed (mid : String) :
    ∀ (ds : List String) (acc : String), (∀ d ∈ ds, d ≠ "") →
      processOpenAILines mid (ds.map SSELine.data ++ [SSELine.doneSignal]) acc
        = cumulativeChunks mid acc ds ++ [⟨acc ++ strConcat ds, "", true, mid⟩] := by
  intro ds
  induction ds with
  | nil => intro acc _; simp [processOpenAILines, cumulativeChunks, strConcat]
  | cons d rest ih =>
    intro acc hne
    have hd : d ≠ "" := hne d (by simp)
    have hrest : ∀ x ∈ rest, x ≠ "" := fun x hx => hne x (by simp [hx])
    simp only [List.map_cons, List.cons_append, processOpenAILines, if_neg hd]
    simp only [List.append_eq]
    rw [ih (acc ++ d) hrest]
    simp [cumulativeChunks, strConcat, String.append_assoc]

lemma procOllama_wellformed (mid : String) :
    ∀ (ds : List String) (acc : String), (∀ d ∈ ds, d ≠ "") →
      processOllamaLines mid
          (ds.map (fun d => OllamaLine.event d false) ++ [OllamaLine.event "" true]) acc
        = cumulativeChunks mid acc ds ++ [⟨acc ++ strConcat ds, "", true, mid⟩] := by
  intro ds
  induction ds with
  | nil => intro acc _; simp [processOllamaLines, cumulativeChunks, strConcat]
  | cons d rest ih =>
    intro acc hne
    have hd : d ≠ "" := hne d (by simp)
    have hrest : ∀ x ∈ rest, x ≠ "" := fun x hx => hne x (by simp [hx])
    simp only [List.map_cons, List.cons_append, processOllamaLines, if_neg hd, if_false,
      Bool.false_eq_true]
    simp only [List.append_eq, List.nil_append]
    rw [ih (acc ++ d) hrest]
    simp [cumulativeChunks, strConcat, String.append_assoc]

lemma cumulativeChunks_getElem (mid : String) :
    ∀ (ds : List String) (acc : String) (i : Nat),
      (cumulativeChunks mid acc ds)[i]?
        = (ds[i]?).map (fun d => ⟨acc ++ strConcat (ds.take (i + 1)), d, false, mid⟩) := by
  intro ds
  induction ds with
  | nil => intro acc i; simp [cumulativeChunks]
  | cons d rest ih =>
    intro acc i
    cases i with
    | zero => simp [cumulativeChunks, strConcat]
    | succ j =>
      simp only [cumulativeChunks, List.getElem?_cons_succ, List.take_succ_cons]
      rw [ih (acc ++ d) j]
      cases hx : rest[j]? with
      | none => simp
      | some x => simp [strConcat, String.append_assoc]

lemma cumulativeChunks_length (mid : String) :
    ∀ (ds : List String) (acc : String),
      (cumulativeChunks mid acc ds).length = ds.length := by
  intro ds
  induction ds with
  | nil => intro acc; simp [cumulativeChunks]
  | cons d rest ih => intro acc; simp [cumulativeChunks, ih]

lemma cumulativeChunks_finished (mid : String) :
    ∀ (ds : List String) (acc : String) (c : LLMStreamChunk),
      c ∈ cumulativeChunks mid acc ds → c.finished = false := by
  intro ds
  induction ds with
  | nil => intro acc c hc; simp [cumulativeChunks] at hc
  | cons d rest ih =>
    intro acc c hc
    simp only [cumulativeChunks, List.mem_cons] at hc
    rcases hc with hc | hc
    · subst hc; rfl
    · exact ih (acc ++ d) c hc

/-- C5 counterexample: a stream whose byte stream ends (reader reports
done) without the backend's completion signal — here a single OpenAI SSE
line carrying delta "hi" and no `[DONE]` sentinel — produces only the
non-final chunk: the produced sequence does NOT terminate with a final
`finished = true` chunk, contradicting the claim's unconditional
"always". -/
theorem claim_C5_counterexample :
    processOpenAILines "m" [SSELine.data "hi"] "" = [⟨"hi", "hi", false, "m"⟩] ∧
    ((processOpenAILines "m" [SSELine.data "hi"] "").getLast?).map LLMStreamChunk.finished
      = some false := by
  exact ⟨by decide, by decide⟩

/-- C5 (amended): chunks are produced in emission order with each
non-final chunk's cumulative content equal to the concatenation of all
deltas yielded so far, and WHEN the backend's completion signal is
present, the sequence terminates with exactly one final chunk with
`finished = true` and empty delta; for a well-formed stream of K
non-empty deltas followed by the completion signal, exactly K non-final
chunks precede that final chunk (for both the OpenAI and the Ollama
decoder).  A stream lacking the completion signal ends without a final
chunk. -/
theorem claim_C5 :
    (∀ (mid : String) (ds : List String) (acc : String), (∀ d ∈ ds, d ≠ "") →
      processOpenAILines mid (ds.map SSELine.data ++ [SSELine.doneSignal]) acc
        = cumulativeChunks mid acc ds ++ [⟨acc ++ strConcat ds, "", true, mid⟩]) ∧
    (∀ (mid : String) (ds : List String) (acc : String), (∀ d ∈ ds, d ≠ "") →
      processOllamaLines mid
          (ds.map (fun d => OllamaLine.event d false) ++ [OllamaLine.event "" true]) acc
        = cumulativeChunks mid acc ds ++ [⟨acc ++ strConcat ds, "", true, mid⟩]) ∧
    (∀ (mid : String) (ds : List String) (acc : String) (i : Nat),
      (cumulativeChunks mid acc ds)[i]?
        = (ds[i]?).map (fun d => ⟨acc ++ strConcat (ds.take (i + 1)), d, false, mid⟩)) ∧
    (∀ (mid : String) (ds : List String) (acc : String),
      (cumulativeChunks mid acc ds).length = ds.length) ∧
    (∀ (mid : String) (ds : List String) (acc : String) (c : LLMStreamChunk),
      c ∈ cumulativeChunks mid acc ds → c.finished = false) := by
  refine ⟨procOpenAI_wellformed, procOllama_wellformed, ?_, ?_, ?_⟩
  · intro mid ds acc i; exact cumulativeChunks_getElem mid ds acc i
  · intro mid ds acc; exact cumulativeChunks_length mid ds acc
  · intro mid ds acc c hc; exact cumulativeChunks_finished mid ds acc c hc

/-- C5 witness: the amended theorem at the concrete stream with deltas
["ab", "c"] followed by the completion signal. -/
theorem claim_C5_witness :
    processOpenAILines "m" (["ab", "c"].map SSELine.data ++ [SSELine.doneSignal]) ""
      = cumulativeChunks "m" "" ["ab", "c"]
          ++ [⟨"" ++ strConcat ["ab", "c"], "", true, "m"⟩] :=
  claim_C5.1 "m" ["ab", "c"] "" (by decide)

/-! ## Claim C6 — usage statistics -/

lemma errorCount_cons (ev : UsageEvent) (rest : List UsageEvent) :
    errorCount (ev :: rest) = (if ev.isError then 1 else 0) + errorCount rest := by
  simp only [errorCount, List.filter_cons]
  cases h : ev.isError <;> simp [h, Nat.add_comm]

lemma usage_fold :
    ∀ (evts : List UsageEvent) (s : LLMUsageStats) (n e : Nat),
      s.totalRequests = (n : ℚ) → s.errorRate = (e : ℚ) / (n : ℚ) → (n = 0 → e = 0) →
      (evts.foldl applyUsage s).totalRequests = (n : ℚ) + (evts.length : ℚ) ∧
      (evts.foldl applyUsage s).errorRate
        = ((e : ℚ) + (errorCount evts : ℚ)) / ((n : ℚ) + (evts.length : ℚ)) := by
  intro evts
  induction evts with
  | nil =>
    intro s n e h1 h2 h3
    simp [h1, h2, errorCount]
  | cons ev rest ih =>
    intro s n e h1 h2 h3
    have hround : round (s.errorRate * s.totalRequests) = (e : ℤ) := by
      rw [h1, h2]
      cases Nat.eq_zero_or_pos n with
      | inl h0 =>
        subst h0
        have he0 : e = 0 := h3 rfl
        subst he0
        norm_num
      | inr hpos =>
        have hne : ((n : ℚ)) ≠ 0 := Nat.cast_ne_zero.mpr (by omega)
        rw [div_mul_cancel₀ _ hne]
        exact round_natCast e
    have hreq : (applyUsage s ev).totalRequests = ((n + 1 : ℕ) : ℚ) := by
      simp only [applyUsage, updateUsageStats, h1]
      push_cast
      ring
    have herr : (applyUsage s ev).errorRate
        = (((e + (if ev.isError then 1 else 0) : ℕ)) : ℚ) / ((n + 1 : ℕ) : ℚ) := by
      simp only [applyUsage, updateUsageStats, hround]
      rw [h1]
      cases hie : ev.isError <;> push_cast <;> simp
    obtain ⟨ih1, ih2⟩ := ih (applyUsage s ev) (n + 1) (e + (if ev.isError then 1 else 0))
      hreq herr (by omega)
    constructor
    · rw [List.foldl_cons, ih1]
      simp only [List.length_cons]
      push_cast
      ring
    · rw [List.foldl_cons, ih2, errorCount_cons]
      simp only [List.length_cons]
      cases hie : ev.isError <;> simp only [hie, if_true, if_false, Bool.false_eq_true] <;>
        push_cast <;> ring_nf
  
/-- C6: for any sequence of N calls against one provider, E of which end
in error, the statistics after all calls settle have
`totalRequests = N` and `errorRate = E / N` exactly — the
`round(errorRate * totalRequests)` reconstruction loses nothing under
exact arithmetic (first conjunct; for `N = 0` the right-hand side is the
rational `0/0 = 0`, matching the initial stats).  Each update is
monotone in the totals: requests, tokens (given a non-negative token
count) and cost (given a non-negative cost) never decrease (second
conjunct). -/
theorem claim_C6 :
    (∀ evts : List UsageEvent,
      (runUsage evts).totalRequests = (evts.length : ℚ) ∧
      (runUsage evts).errorRate = (errorCount evts : ℚ) / (evts.length : ℚ)) ∧
    (∀ (s : LLMUsageStats) (ev : UsageEvent),
      0 ≤ ev.tokens → 0 ≤ ev.cost →
      s.totalRequests ≤ (applyUsage s ev).totalRequests ∧
      s.totalTokens ≤ (applyUsage s ev).totalTokens ∧
      s.totalCost ≤ (applyUsage s ev).totalCost) := by
  constructor
  · intro evts
    have h := usage_fold evts initialUsageStats 0 0 (by simp [initialUsageStats])
      (by simp [initialUsageStats]) (by omega)
    obtain ⟨h1, h2⟩ := h
    constructor
    · rw [runUsage, h1]; push_cast; ring
    · rw [runUsage, h2]; push_cast; ring_nf
  · intro s ev htok hcost
    refine ⟨?_, ?_, ?_⟩
    · simp only [applyUsage, updateUsageStats]; linarith
    · simp only [applyUsage, updateUsageStats]; linarith
    · simp only [applyUsage, updateUsageStats]; linarith

/-- C6 witness: one successful call with 10 tokens and cost 1 applied to
the freshly created statistics does not decrease any total. -/
theorem claim_C6_witness :
    initialUsageStats.totalRequests
        ≤ (applyUsage initialUsageStats ⟨10, 1, 100, false⟩).totalRequests ∧
      initialUsageStats.totalTokens
        ≤ (applyUsage initialUsageStats ⟨10, 1, 100, false⟩).totalTokens ∧
      initialUsageStats.totalCost
        ≤ (applyUsage initialUsageStats ⟨10, 1, 100, false⟩).totalCost :=
  claim_C6.2 initialUsageStats ⟨10, 1, 100, false⟩ (by norm_num) (by norm_num)

/-! ## Claim C7 — cost estimation formula -/

/-- C7: when the resolved model exists and has pricing, `estimateCost`
returns `(inputTokens/1000)*input + (outputTokens/1000)*output`, where
the input token count is the joined message content length divided by 4
rounded up — conjunct two characterises `estimateTokens` as exact
ceiling division: `4 * estimateTokens s` is the least multiple of 4 at
least `s.length` — and the output token count is `request.maxTokens` or
10% of the model's `maxTokens` when unspecified (`outTokens`).  When the
resolved model has no pricing, or is not in the catalog, the estimate is
0 (conjuncts three and four).  Scenario C: a 400-character request
against a model with `maxTokens` 100 and prices {0.01, 0.02} costs
exactly 0.0012 (last conjunct). -/
theorem claim_C7 :
    (∀ (models : List LLMModel) (req : LLMRequest) (mid : String) (m : LLMModel)
        (price : CostPer1k),
      requestModelId models req = some mid → getModelById models mid = some m →
      m.costPer1kTokens = some price →
      estimateCostO models req
        = some (((estimateTokens (joinedContent req) : ℚ) / 1000) * price.input +
            (outTokens req m / 1000) * price.output)) ∧
    (∀ s : String, s.length ≤ 4 * estimateTokens s ∧ 4 * estimateTokens s < s.length + 4) ∧
    (∀ (models : List LLMModel) (req : LLMRequest) (mid : String) (m : LLMModel),
      requestModelId models req = some mid → getModelById models mid = some m →
      m.costPer1kTokens = none → estimateCostO models req = some 0) ∧
    (∀ (models : List LLMModel) (req : LLMRequest) (mid : String),
      requestModelId models req = some mid → getModelById models mid = none →
      estimateCostO models req = some 0) ∧
    estimateCostO [scModel] scRequest = some (12 / 10000) := by
  refine ⟨?_, ?_, ?_, ?_, ?_⟩
  · intro models req mid m price h1 h2 h3
    simp only [estimateCostO, h1, Option.map_some']
    simp only [estimateCostCore, h2, h3]
  · intro s
    constructor
    · simp only [estimateTokens]; omega
    · simp only [estimateTokens]; omega
  · intro models req mid m h1 h2 h3
    simp only [estimateCostO, h1, Option.map_some']
    simp only [estimateCostCore, h2, h3]
  · intro models req mid h1 h2
    simp only [estimateCostO, h1, Option.map_some']
    simp only [estimateCostCore, h2]
  · have h1 : requestModelId [scModel] scRequest = some "m1" := rfl
    have h2 : getModelById [scModel] "m1" = some scModel := rfl
    have htok : estimateTokens (joinedContent scRequest) = 100 := by decide
    have hout : outTokens scRequest scModel = 10 := by norm_num [outTokens, scRequest, scModel]
    simp only [estimateCostO, h1, Option.map_some']
    simp only [estimateCostCore, h2, htok, hout]
    norm_num [scModel]

/-- C7 witness: the pricing formula applied to Scenario C's model and
request. -/
theorem claim_C7_witness :
    estimateCostO [scModel] scRequest
      = some (((estimateTokens (joinedContent scRequest) : ℚ) / 1000) * (1 / 100) +
          (outTokens scRequest scModel / 1000) * (1 / 50)) :=
  claim_C7.1 [scModel] scRequest "m1" scModel ⟨1 / 100, 1 / 50⟩ rfl rfl rfl

/-! ## Claim C10 — the models[0] dereference -/

/-- C10: with an empty model catalog and a request that does not name a
model (an empty-string model id is falsy and counts as unnamed), both
`estimateCost`'s model resolution and the payload builder's `model`
field dereference the absent `models[0]` — the embedded operations
return `none`, the modelled TypeError.  Under the precondition that the
catalog is non-empty or the request truthily names a model, all three
operations are total (`isSome`). -/
theorem claim_C10 :
    ∀ (models : List LLMModel) (req : LLMRequest),
      (models = [] → jsStr req.model = none →
        requestModelId models req = none ∧ payloadModelField models req = none ∧
        estimateCostO models req = none) ∧
      ((models ≠ [] ∨ jsStr req.model ≠ none) →
        (requestModelId models req).isSome = true ∧
        (payloadModelField models req).isSome = true ∧
        (estimateCostO models req).isSome = true) := by
  intro models req
  constructor
  · intro hm hjs
    subst hm
    simp [requestModelId, payloadModelField, estimateCostO, hjs]
  · intro h
    cases hjs : jsStr req.model with
    | some mid => simp [requestModelId, payloadModelField, estimateCostO, hjs]
    | none =>
      have hm : models ≠ [] := by
        rcases h with h | h
        · exact h
        · exact absurd hjs h
      cases models with
      | nil => exact absurd rfl hm
      | cons m rest => simp [requestModelId, payloadModelField, estimateCostO, hjs]

/-- C10 witness: the crash case at an empty catalog and model-less
request, and the total case at Scenario C's input. -/
theorem claim_C10_witness :
    (requestModelId [] ⟨[], none, none, none, none⟩ = none ∧
      payloadModelField [] ⟨[], none, none, none, none⟩ = none ∧
      estimateCostO [] ⟨[], none, none, none, none⟩ = none) ∧
    ((requestModelId [scModel] scRequest).isSome = true ∧
      (payloadModelField [scModel] scRequest).isSome = true ∧
      (estimateCostO [scModel] scRequest).isSome = true) :=
  ⟨(claim_C10 [] ⟨[], none, none, none, none⟩).1 rfl rfl,
   (claim_C10 [scModel] scRequest).2 (Or.inl (by simp))⟩

/-! ## Claim C8 — status cache freshness -/

/-- C8: a `getStatus` call within 5 minutes of the cached status's
`lastChecked` returns the cached status unchanged and performs no probe
(first conjunct); a call more than 5 minutes after `lastChecked`
performs a fresh probe whose result carries the new check time and is
what gets cached (second conjunct); hence two calls, the first probing
cold and the second within 5 minutes of the first's `lastChecked`,
return identical results with no probe on the second call (third
conjunct). -/
theorem claim_C8 :
    (∀ (s : LLMProviderStatus) (now2 : Int) (probe : ProbeOutcome),
      now2 - 5 * 60 * 1000 < s.lastChecked →
      getStatus (some s) now2 probe = (s, false)) ∧
    (∀ (s : LLMProviderStatus) (now2 : Int) (probe : ProbeOutcome),
      5 * 60 * 1000 < now2 - s.lastChecked →
      getStatus (some s) now2 probe = runProbe now2 probe ∧
      (runProbe now2 probe).2 = true ∧
      (runProbe now2 probe).1.lastChecked = now2 + probe.elapsed) ∧
    (∀ (now1 now2 : Int) (p1 p2 : ProbeOutcome),
      now2 - 5 * 60 * 1000 < (runProbe now1 p1).1.lastChecked →
      getStatus (some (runProbe now1 p1).1) now2 p2 = ((runProbe now1 p1).1, false)) := by
  refine ⟨?_, ?_, ?_⟩
  · intro s now2 probe h
    simp only [getStatus, isStatusFresh, decide_eq_true_eq]
    rw [if_pos h]
  · intro s now2 probe h
    have hnf : ¬(now2 - 5 * 60 * 1000 < s.lastChecked) := by omega
    refine ⟨?_, ?_, ?_⟩
    · simp only [getStatus, isStatusFresh, decide_eq_true_eq]
      rw [if_neg hnf]
    · cases hf : probe.failure <;> simp [runProbe, hf]
    · cases hf : probe.failure <;> simp [runProbe, hf]
  · intro now1 now2 p1 p2 h
    simp only [getStatus, isStatusFresh, decide_eq_true_eq]
    rw [if_pos h]

/-- C8 witness: a cold probe at time 0 (10 ms elapsed, success) followed
by a second call at time 1000 returns the identical cached status with
no second probe, even though the second scripted probe would have
failed. -/
theorem claim_C8_witness :
    getStatus (some (runProbe 0 ⟨10, none⟩).1) 1000 ⟨99, some "down"⟩
      = ((runProbe 0 ⟨10, none⟩).1, false) :=
  claim_C8.2.2 0 1000 ⟨10, none⟩ ⟨99, some "down"⟩ (by decide)

/-! ## Claim C9 — provider registration and the active pointer -/

lemma applyMOp_inv (d : Option String) (m : ManagerState) (o : MOp)
    (hm : ∀ a, m.active = some a → a ∈ m.providers) :
    ∀ a, (applyMOp d m o).active = some a → a ∈ (applyMOp d m o).providers := by
  cases o with
  | register n =>
    intro a ha
    simp only [applyMOp, registerProvider] at ha ⊢
    by_cases hc : jsTruthyStr m.active = false ∨ d = some n
    · simp only [if_pos hc] at ha ⊢
      cases ha
      by_cases hin : n ∈ m.providers
      · simp only [if_pos hin]
        exact hin
      · simp only [if_neg hin]
        simp
    · simp only [if_neg hc] at ha ⊢
      by_cases hin : n ∈ m.providers
      · simp only [if_pos hin] at ha ⊢
        exact hm a ha
      · simp only [if_neg hin] at ha ⊢
        exact List.mem_append_left _ (hm a ha)
  | unregister n =>
    intro a ha
    simp only [applyMOp, unregisterProvider] at ha ⊢
    by_cases hact : m.active = some n
    · simp only [if_pos hact] at ha ⊢
      exact List.mem_of_mem_head? (Option.mem_def.mpr ha)
    · simp only [if_neg hact] at ha ⊢
      have hmem := hm a ha
      have hane : a ≠ n := by
        intro heq
        subst heq
        rw [ha] at hact
        exact hact rfl
      exact (List.mem_erase_of_ne hane).mpr hmem
  | setActive n =>
    intro a ha
    simp only [applyMOp, setActiveProvider] at ha ⊢
    by_cases hin : n ∈ m.providers
    · simp only [if_pos hin] at ha ⊢
      cases ha; exact hin
    · simp only [if_neg hin] at ha ⊢
      exact hm a ha

lemma foldl_mop_inv (d : Option String) :
    ∀ (ops : List MOp) (m : ManagerState),
      (∀ a, m.active = some a → a ∈ m.providers) →
      ∀ a, (ops.foldl (applyMOp d) m).active = some a →
        a ∈ (ops.foldl (applyMOp d) m).providers := by
  intro ops
  induction ops with
  | nil => intro m hm a; exact hm a
  | cons o rest ih =>
    intro m hm a
    rw [List.foldl_cons]
    exact ih (applyMOp d m o) (applyMOp_inv d m o hm) a

/-- C9: registering a provider makes it active exactly when no active
provider is set (falsy pointer) or its name equals the configured
default (first conjunct, stated for a provider not already active);
removing the active provider reassigns the pointer to the first
remaining registered provider — `none` exactly when none remain
(second conjunct) — and the reassigned pointer names a registered
provider (third conjunct); registering "alpha" then "beta" with no
default makes "alpha" active, and then removing "alpha" makes "beta"
active (fourth conjunct); over any operation sequence from a fresh
manager the active pointer, when set, names a registered provider
(fifth conjunct). -/
theorem claim_C9 :
    (∀ (d : Option String) (m : ManagerState) (n : String),
      m.active ≠ some n →
      ((registerProvider d m n).active = some n ↔
        (jsTruthyStr m.active = false ∨ d = some n))) ∧
    (∀ (m : ManagerState) (n : String),
      m.active = some n →
      (unregisterProvider m n).active = (m.providers.erase n).head?) ∧
    (∀ (m : ManagerState) (n a : String),
      m.active = some n → (unregisterProvider m n).active = some a →
      a ∈ (unregisterProvider m n).providers) ∧
    (runMOps none [MOp.register "alpha", MOp.register "beta"]
        = ⟨["alpha", "beta"], some "alpha"⟩ ∧
      runMOps none [MOp.register "alpha", MOp.register "beta", MOp.unregister "alpha"]
        = ⟨["beta"], some "beta"⟩) ∧
    (∀ (d : Option String) (ops : List MOp) (a : String),
      (runMOps d ops).active = some a → a ∈ (runMOps d ops).providers) := by
  refine ⟨?_, ?_, ?_, ⟨by decide, by decide⟩, ?_⟩
  · intro d m n hne
    simp only [registerProvider]
    by_cases hc : jsTruthyStr m.active = false ∨ d = some n
    · rw [if_pos hc]
      exact iff_of_true rfl hc
    · rw [if_neg hc]
      exact iff_of_false hne hc
  · intro m n hact
    simp only [unregisterProvider, if_pos hact]
  · intro m n a hact ha
    simp only [unregisterProvider, if_pos hact] at ha ⊢
    exact List.mem_of_mem_head? (Option.mem_def.mpr ha)
  · intro d ops a
    refine foldl_mop_inv d ops initialManagerState ?_ a
    intro b hb
    simp [initialManagerState] at hb

/-- C9 witness: registering "gamma" into a manager whose active provider
is "alpha" while "gamma" is the configured default makes "gamma"
active. -/
theorem claim_C9_witness :
    (registerProvider (some "gamma") ⟨["alpha"], some "alpha"⟩ "gamma").active
      = some "gamma" :=
  (claim_C9.1 (some "gamma") ⟨["alpha"], some "alpha"⟩ "gamma" (by simp)).mpr (Or.inr rfl)
